import Mathlib

/-!
Shallow embedding of `src/parser.py` (class `PDFParser`) from the
pdf-to-json-extractor repository, together with theorems checking the
specification's claims about it.

Modelling conventions:
* Python strings are `List Char` (`Str`); `str.strip()` is `pyStrip`,
  which removes the characters Python treats as whitespace from both ends.
* Python floats appearing as font sizes and coordinates are rationals `ℚ`;
  `round` is `pyRound`, Python's round-half-to-even.
* `fitz.Rect` is `Rect`; `Rect.intersects` follows PyMuPDF: the two
  rectangles intersect iff their intersection rectangle is non-empty
  (strict overlap in both axes); empty rectangles intersect nothing.
  (PyMuPDF additionally excludes infinite rectangles; page geometry here
  is always finite so that case is not modelled.)
* The mutable fields `self.current_section` / `self.current_sub_section`
  of `PDFParser` are threaded explicitly as a `Tracker` value.
* The Camelot call `camelot.read_pdf(...)` is an external collaborator:
  its outcome is an input of type `Except String (List CamelotTable)`,
  `.error` meaning the call raised.
* Python's `sorted` (a stable ascending sort by key) is modelled by
  `List.insertionSort` with the key order, which is also stable and
  ascending; stable sorts agree on their output.
-/

namespace PdfJson

abbrev Str := List Char

/-- Characters Python's `str.strip()` removes (ASCII whitespace). -/
def pyIsSpace (c : Char) : Bool :=
  c = ' ' || c = '\t' || c = '\n' || c = '\r' || c = '\x0b' || c = '\x0c'

def lstrip (s : Str) : Str := s.dropWhile pyIsSpace

def rstrip (s : Str) : Str := (s.reverse.dropWhile pyIsSpace).reverse

/-- Python `str.strip()`: remove whitespace from both ends. -/
def pyStrip (s : Str) : Str := lstrip (rstrip s)

/-- Lowercasing, modelling `str.lower()` on font names (ASCII letters). -/
def lowerStr (s : Str) : Str := s.map Char.toLower

/-- Python's `needle in hay` substring test. -/
def strHasSub (needle hay : Str) : Bool :=
  (List.range (hay.length + 1)).any fun i => needle.isPrefixOf (hay.drop i)

/-- Floor of a rational, `q.num.fdiv q.den` (floor division). -/
def ratFloor (q : ℚ) : ℤ := q.num.fdiv (q.den : ℤ)

/-- Python's `round` to an integer: round half to even.  With `f = ⌊q⌋` the
fractional part is `q - f = (q.num - f * q.den) / q.den`, so comparing it
with `1/2` is comparing `2 * (q.num - f * q.den)` with `q.den`; on a tie,
round to the even neighbour.  (Stated on integers so that it evaluates by
kernel reduction.) -/
def pyRound (q : ℚ) : ℤ :=
  let d : ℤ := (q.den : ℤ)
  let f : ℤ := ratFloor q
  let twiceFrac : ℤ := 2 * (q.num - f * d)
  if twiceFrac < d then f
  else if d < twiceFrac then f + 1
  else if f % 2 = 0 then f else f + 1

/-- Exact subtraction on `ℚ`, written with `mkRat` so that it evaluates by
kernel reduction (Batteries' `Rat.sub` is irreducible). -/
def ratSub (a b : ℚ) : ℚ := mkRat (a.num * (b.den : ℤ) - b.num * (a.den : ℤ)) (a.den * b.den)

/-- A PyMuPDF text span: `span['size']`, `span['font']`, `span['text']`. -/
structure Span where
  size : ℚ
  font : Str
  text : Str
  deriving DecidableEq

/-- Whether `"bold" in span['font'].lower()` holds. -/
def isBoldFont (font : Str) : Bool := strHasSub "bold".toList (lowerStr font)

/-- `PDFParser.get_text_style` (parser.py lines 18-37): classify a span as
heading-major `"h1"`, heading-minor `"h2"`, or paragraph `"p"` from its
rounded font size and boldness of its font name. -/
def get_text_style (span : Span) : String :=
  let font_size := pyRound span.size
  let is_bold := isBoldFont span.font
  if 15 < font_size then "h1"
  else if 12 ≤ font_size ∧ is_bold then "h2"
  else if 12 < font_size then "h2"
  else "p"

/-- A rectangle `(x0, y0, x1, y1)` in page coordinates (`fitz.Rect`). -/
structure Rect where
  x0 : ℚ
  y0 : ℚ
  x1 : ℚ
  y1 : ℚ
  deriving DecidableEq

/-- PyMuPDF `Rect.is_empty`: `x0 >= x1 or y0 >= y1`. -/
def Rect.isDegenerate (r : Rect) : Bool :=
  decide (r.x1 ≤ r.x0) || decide (r.y1 ≤ r.y0)

/-- PyMuPDF `Rect.intersects`: the intersection rectangle
`(max x0, max y0, min x1, min y1)` is non-empty, i.e. the rectangles
strictly overlap in both axes.  An empty rectangle intersects nothing. -/
def Rect.intersects (a b : Rect) : Bool :=
  decide (max a.x0 b.x0 < min a.x1 b.x1) && decide (max a.y0 b.y0 < min a.y1 b.y1)

/-- A line of a PyMuPDF text block: `line['spans']`. -/
structure Line where
  spans : List Span
  deriving DecidableEq

/-- A PyMuPDF block from `page.get_text("dict")["blocks"]`:
`block['type']` (0 = text), `block['bbox']`, `block['lines']`. -/
structure Block where
  btype : ℕ
  bbox : Rect
  lines : List Line
  deriving DecidableEq

/-- The mutable section state of `PDFParser` (`self.current_section`,
`self.current_sub_section`). -/
structure Tracker where
  current_section : Str
  current_sub_section : Option Str
  deriving DecidableEq

/-- `PDFParser.__init__`: section `"Default"`, subsection `None`. -/
def tracker0 : Tracker := ⟨"Default".toList, none⟩

/-- A content item of the output, after the `bbox` key was deleted: the
tagged union `paragraph` / `table` / `chart` from the output contract. -/
inductive ContentItem where
  | paragraph (text : Str) («section» : Str) (sub_section : Option Str)
  | table («section» : Str) (sub_section : Option Str) (table_data : List (List Str))
  | chart («section» : Str) (sub_section : Option Str) (description : Str)
  deriving DecidableEq

/-- The text of a paragraph item (used to state which blocks survive). -/
def ContentItem.textOf : ContentItem → Str
  | .paragraph t _ _ => t
  | _ => []

/-- The concatenated span texts of one line: `"".join(span.get('text',''))`. -/
def lineText (l : Line) : Str := (l.spans.map Span.text).flatten

/-- `PDFParser.extract_clean_text` (parser.py lines 39-49): per line,
concatenate the spans' texts and strip; join with newlines; strip the
whole result. -/
def extract_clean_text (b : Block) : Str :=
  pyStrip (b.lines.foldl (fun acc l => acc ++ pyStrip (lineText l) ++ ['\n']) [])

/-- The style of a block: the style of the first span of the first line,
defaulting to `"p"` (parser.py lines 164-166). -/
def blockStyle (b : Block) : String :=
  match b.lines with
  | [] => "p"
  | l :: _ =>
    match l.spans with
    | [] => "p"
    | s :: _ => get_text_style s

/-- Whether a block's bounding box intersects one of the suppression
boxes (parser.py line 155). -/
def suppressed (ignoreBoxes : List Rect) (b : Block) : Bool :=
  ignoreBoxes.any fun r => r.intersects b.bbox

/-- One iteration of the loop body of `extract_text_blocks`
(parser.py lines 149-186): skip non-text blocks, suppressed blocks and
blocks that clean to the empty string; otherwise update the tracker from
the block's style and emit a paragraph item stamped with the updated
tracker, still carrying its bounding box. -/
def processBlock (ignoreBoxes : List Rect) (tr : Tracker) (b : Block) :
    Tracker × Option (Rect × ContentItem) :=
  if b.btype ≠ 0 then (tr, none)
  else if suppressed ignoreBoxes b then (tr, none)
  else
    let t := extract_clean_text b
    if t.isEmpty then (tr, none)
    else
      let tr' : Tracker :=
        if blockStyle b = "h1" then ⟨t, none⟩
        else if blockStyle b = "h2" then ⟨tr.current_section, some t⟩
        else tr
      (tr', some (b.bbox, ContentItem.paragraph t tr'.current_section tr'.current_sub_section))

/-- `PDFParser.extract_text_blocks` (parser.py lines 141-188), with the
tracker state threaded explicitly through the blocks in order. -/
def extract_text_blocks (ignoreBoxes : List Rect) (tr : Tracker) :
    List Block → Tracker × List (Rect × ContentItem)
  | [] => (tr, [])
  | b :: rest =>
    let step := processBlock ignoreBoxes tr b
    let next := extract_text_blocks ignoreBoxes step.1 rest
    (next.1, match step.2 with
      | none => next.2
      | some it => it :: next.2)

/-- A Camelot table candidate: `table._bbox = (x1, y1, x2, y2)` in
Camelot's coordinate space and the cell grid `table.df` (already
stringified; `df.shape = (number of rows, number of columns)`). -/
structure CamelotTable where
  bx1 : ℚ
  by1 : ℚ
  bx2 : ℚ
  by2 : ℚ
  df : List (List Str)
  deriving DecidableEq

/-- Row count `df.shape[0]`. -/
def shapeRows (df : List (List Str)) : ℕ := df.length

/-- Column count `df.shape[1]`.  Camelot DataFrames are rectangular, so
the column count is the length of any row; read it from the first. -/
def shapeCols (df : List (List Str)) : ℕ :=
  match df with
  | [] => 0
  | row :: _ => row.length

/-- One cleaned row: `[str(cell).strip() for cell in row if str(cell).strip()]`. -/
def cleanRow (row : List Str) : List Str :=
  (row.map pyStrip).filter fun c => !c.isEmpty

/-- `final_table_data` (parser.py lines 88-94): clean every row, then keep
only rows that are non-empty after cleaning. -/
def finalTableData (df : List (List Str)) : List (List Str) :=
  (df.map cleanRow).filter fun r => !r.isEmpty

/-- The coordinate conversion of parser.py lines 79-83:
`y1 = page_height - y2_camelot`, `y2 = page_height - y1_camelot`. -/
def convBBox (page_height : ℚ) (t : CamelotTable) : Rect :=
  ⟨t.bx1, ratSub page_height t.by2, t.bx2, ratSub page_height t.by1⟩

/-- The per-candidate loop of `extract_tables` (parser.py lines 67-104):
filter false positives by shape, convert the bounding box (always added
to the suppression list once the shape filter passes), clean the cells,
and emit a table item when some row survives. -/
def extractTablesLoop (tr : Tracker) (page_height : ℚ) :
    List CamelotTable → List (Rect × ContentItem) × List Rect
  | [] => ([], [])
  | t :: rest =>
    let next := extractTablesLoop tr page_height rest
    if shapeCols t.df ≤ 1 then next
    else if 10 < shapeRows t.df ∧ shapeCols t.df < 3 then next
    else
      let r := convBBox page_height t
      let fin := finalTableData t.df
      if fin.isEmpty then (next.1, r :: next.2)
      else ((r, ContentItem.table tr.current_section tr.current_sub_section fin) :: next.1,
            r :: next.2)

/-- `PDFParser.extract_tables` (parser.py lines 51-111).  The Camelot
call is an external collaborator whose outcome is passed in as an
`Except`; `.error` means the call raised, and the whole `try` body is
then skipped, leaving both result lists empty. -/
def extract_tables (tr : Tracker) (page_height : ℚ)
    (camelotResult : Except String (List CamelotTable)) :
    List (Rect × ContentItem) × List Rect :=
  match camelotResult with
  | .error _ => ([], [])
  | .ok tables => extractTablesLoop tr page_height tables

/-- The description string `f"Chart or image found on page {page.number + 1}"`. -/
def chartDesc (pageNumber1 : ℕ) : Str :=
  "Chart or image found on page ".toList ++ (Nat.repr pageNumber1).toList

/-- `PDFParser.extract_images` (parser.py lines 113-139): one chart item
per image whose bounding box is not empty, stamped with the current
tracker state.  The page's images are given by their bounding boxes. -/
def extract_images (tr : Tracker) (pageIdx : ℕ) :
    List Rect → List (Rect × ContentItem) × List Rect
  | [] => ([], [])
  | r :: rest =>
    let next := extract_images tr pageIdx rest
    if r.isDegenerate then next
    else ((r, ContentItem.chart tr.current_section tr.current_sub_section
              (chartDesc (pageIdx + 1))) :: next.1,
          r :: next.2)

/-- The inputs of one page: its height, the outcome of the Camelot call
for it, its raster image bounding boxes, and its text blocks. -/
structure PageInput where
  height : ℚ
  camelot : Except String (List CamelotTable)
  images : List Rect
  blocks : List Block

/-- The sort order of parser.py line 211: ascending in
`item['bbox'][1]`, the top-edge y-coordinate. -/
def bboxLE (a b : Rect × ContentItem) : Prop := a.1.y0 ≤ b.1.y0

instance : DecidableRel bboxLE := fun a b => inferInstanceAs (Decidable (a.1.y0 ≤ b.1.y0))

instance : IsTotal (Rect × ContentItem) bboxLE := ⟨fun a b => le_total a.1.y0 b.1.y0⟩

instance : IsTrans (Rect × ContentItem) bboxLE := ⟨fun _ _ _ h h' => le_trans h h'⟩

/-- The concatenation `tables_data + images_data + text_content` of
parser.py line 208, with each item still paired with its bounding box. -/
def pageItemsWithBoxes (tr : Tracker) (pageIdx : ℕ) (pg : PageInput) :
    List (Rect × ContentItem) :=
  let tables := extract_tables tr pg.height pg.camelot
  let images := extract_images tr pageIdx pg.images
  let texts := extract_text_blocks (tables.2 ++ images.2) tr pg.blocks
  tables.1 ++ images.1 ++ texts.2

/-- The tracker state left behind by a page's text pass. -/
def pageTracker (tr : Tracker) (pg : PageInput) : Tracker :=
  let tables := extract_tables tr pg.height pg.camelot
  let images := extract_images tr 0 pg.images
  (extract_text_blocks (tables.2 ++ images.2) tr pg.blocks).1

/-- `PDFParser.parse_page` (parser.py lines 190-218): run the three
extractors, sort the concatenated items by the top edge of their
bounding boxes with a stable ascending sort (Python's `sorted`), then
delete the `bbox` key of every item.  Returns the page's content and
the tracker state after its text blocks. -/
def parse_page (tr : Tracker) (pageIdx : ℕ) (pg : PageInput) :
    Tracker × List ContentItem :=
  let tables := extract_tables tr pg.height pg.camelot
  let images := extract_images tr pageIdx pg.images
  let texts := extract_text_blocks (tables.2 ++ images.2) tr pg.blocks
  let allContent := tables.1 ++ images.1 ++ texts.2
  (texts.1, (List.insertionSort bboxLE allContent).map Prod.snd)

/-- Outcome of the page loop of `PDFParser.parse` (parser.py lines
242-251) for a successfully opened document: either every page was
processed and `doc.close()` ran, or processing some page raised and the
exception propagated.  `closed` records whether `doc.close()` was
reached on that exit path.  A page given as `.error e` is one whose
processing raises `e`. -/
inductive RunResult where
  | ok (closed : Bool) (pages : List (ℕ × List ContentItem))
  | raised (closed : Bool) (e : String)
  deriving DecidableEq

/-- The page loop of `PDFParser.parse`: pages in order, each appended as
`{"page_number": page_num + 1, "content": ...}`; there is no
`try/finally`, so an exception leaves the loop without reaching
`doc.close()`. -/
def parseLoop (tr : Tracker) (pageIdx : ℕ) (acc : List (ℕ × List ContentItem)) :
    List (Except String PageInput) → RunResult
  | [] => .ok true acc
  | (.error e) :: _ => .raised false e
  | (.ok pg) :: rest =>
    let step := parse_page tr pageIdx pg
    parseLoop step.1 (pageIdx + 1) (acc ++ [(pageIdx + 1, step.2)]) rest

/-- `PDFParser.parse` after the document was successfully opened, for a
fresh parser (`parse_pdf` constructs `PDFParser()` and so starts from
`tracker0`). -/
def parseDoc (pages : List (Except String PageInput)) : RunResult :=
  parseLoop tracker0 0 [] pages

/-- The page outputs of an exception-free run of the loop. -/
def pagesOut (tr : Tracker) (pageIdx : ℕ) : List PageInput → List (ℕ × List ContentItem)
  | [] => []
  | pg :: rest =>
    let step := parse_page tr pageIdx pg
    (pageIdx + 1, step.2) :: pagesOut step.1 (pageIdx + 1) rest

/-- The tracker state after an exception-free run of the loop. -/
def trackerAfter (tr : Tracker) (pageIdx : ℕ) : List PageInput → Tracker
  | [] => tr
  | pg :: rest => trackerAfter (parse_page tr pageIdx pg).1 (pageIdx + 1) rest

/-- The survival condition of the text pass, stated declaratively: a text
block (`type == 0`) that intersects no suppression box and whose
normalized text is non-empty. -/
def surviving (ignoreBoxes : List Rect) (b : Block) : Bool :=
  decide (b.btype = 0) && !suppressed ignoreBoxes b && !(extract_clean_text b).isEmpty

/-- The retention condition of the table filter, stated declaratively
from the spec: discard when the column count is at most 1, or the row
count exceeds 10 with fewer than 3 columns, or no row survives cell
cleaning; retain otherwise. -/
def keepTable (t : CamelotTable) : Bool :=
  !decide (shapeCols t.df ≤ 1)
    && !(decide (10 < shapeRows t.df) && decide (shapeCols t.df < 3))
    && !(finalTableData t.df).isEmpty

/-- The table item emitted for a retained candidate. -/
def mkTableItem (tr : Tracker) (page_height : ℚ) (t : CamelotTable) : Rect × ContentItem :=
  (convBBox page_height t,
   ContentItem.table tr.current_section tr.current_sub_section (finalTableData t.df))

/-- Join a list of line texts with single newlines. -/
def joinLinesNL : List Str → Str
  | [] => []
  | [t] => t
  | t :: ts => t ++ '\n' :: joinLinesNL ts

/-- The text a block denotes: its lines' texts joined by single newlines. -/
def blockJoined (b : Block) : Str := joinLinesNL (b.lines.map lineText)

/-- A block with a single span of the given font size, font name and text. -/
def mkBlock (x0 y0 x1 y1 : ℚ) (size : ℚ) (font text : String) : Block :=
  ⟨0, ⟨x0, y0, x1, y1⟩, [⟨[⟨size, font.toList, text.toList⟩]⟩]⟩

/-- Concrete block: a major heading `"Intro"` (font size 20). -/
def blkIntro : Block := mkBlock 0 0 10 1 20 "Arial" "Intro"

/-- Concrete block: a body paragraph `"a"` (font size 10). -/
def blkA : Block := mkBlock 0 2 10 3 10 "Arial" "a"

/-- Concrete block: a minor heading `"Background"` (font size 13). -/
def blkBackground : Block := mkBlock 0 4 10 5 13 "Arial" "Background"

/-- Concrete block: a body paragraph `"b"` (font size 10). -/
def blkB : Block := mkBlock 0 6 10 7 10 "Arial" "b"

/-- Concrete page: a paragraph `"pre"` above a major heading `"Intro"`,
no tables and no images. -/
def pgHeading : PageInput :=
  { height := 100
  , camelot := .ok []
  , images := []
  , blocks := [mkBlock 0 0 10 1 10 "Arial" "pre", mkBlock 0 2 10 3 20 "Arial" "Intro"] }

/-- Concrete page: a single body paragraph `"x"` and nothing else. -/
def pgPlain : PageInput :=
  { height := 100
  , camelot := .ok []
  , images := []
  , blocks := [mkBlock 0 0 10 1 10 "Arial" "x"] }

/-- Concrete Camelot candidate of shape 2 rows by 2 columns whose
converted bounding box has top edge `y0 = 20`. -/
def tblTie : CamelotTable :=
  ⟨1, 75, 5, 80, [["a".toList, "b".toList], ["c".toList, "d".toList]]⟩

/-- Concrete page on which a table, an image and a text block all have
top edge `y0 = 20`, with one more text block above them. -/
def pgTie : PageInput :=
  { height := 100
  , camelot := .ok [tblTie]
  , images := [⟨50, 20, 60, 30⟩]
  , blocks := [mkBlock 70 1 80 2 10 "Arial" "top", mkBlock 70 20 80 21 10 "Arial" "tied"] }

/-- The table item `pgTie` produces (bounding box `(1, 20, 5, 25)`). -/
def itemTieTable : Rect × ContentItem :=
  (⟨1, 20, 5, 25⟩,
   ContentItem.table "Default".toList none [["a".toList, "b".toList], ["c".toList, "d".toList]])

/-- The chart item `pgTie` produces (bounding box `(50, 20, 60, 30)`). -/
def itemTieChart : Rect × ContentItem :=
  (⟨50, 20, 60, 30⟩, ContentItem.chart "Default".toList none (chartDesc 1))

/-- Concrete Camelot candidate of shape 12 rows by 2 columns. -/
def tblTwelveByTwo : CamelotTable :=
  ⟨0, 0, 10, 10, List.replicate 12 ["a".toList, "b".toList]⟩

/-- Concrete Camelot candidate of shape 3 rows by 3 columns with
non-empty cells. -/
def tblThreeByThree : CamelotTable :=
  ⟨0, 0, 10, 10,
   [["a".toList, "b".toList, "c".toList],
    ["d".toList, "e".toList, "f".toList],
    ["g".toList, "h".toList, "i".toList]]⟩

/-- Concrete block whose lines are already normalized (`"ab"`, `"cd"`). -/
def blkNorm : Block :=
  ⟨0, ⟨0, 0, 1, 1⟩,
   [⟨[⟨10, "Arial".toList, "ab".toList⟩]⟩, ⟨[⟨10, "Arial".toList, "cd".toList⟩]⟩]⟩

/-- Concrete heading-styled block lying inside the suppression box
`(0, 0, 10, 10)`. -/
def blkSupp : Block := mkBlock 1 1 5 5 20 "Arial" "Hidden heading"

/-- C4: for every span, with its size rounded to the nearest integer:
rounded size above 15 classifies as heading-major `"h1"` regardless of
font name; otherwise rounded size at least 12 with a font name containing
`"bold"` (case-insensitively) classifies as heading-minor `"h2"`;
otherwise rounded size above 12 classifies as `"h2"` regardless of
boldness; otherwise the classifier returns paragraph `"p"` — in
particular a rounded size of exactly 12 with a non-bold font name
returns `"p"`. -/
theorem c4_style_classifier (s : Span) :
    (15 < pyRound s.size → get_text_style s = "h1")
    ∧ (pyRound s.size ≤ 15 → 12 ≤ pyRound s.size → isBoldFont s.font = true →
        get_text_style s = "h2")
    ∧ (pyRound s.size ≤ 15 → 12 < pyRound s.size → get_text_style s = "h2")
    ∧ (pyRound s.size < 12 → get_text_style s = "p")
    ∧ (pyRound s.size = 12 → isBoldFont s.font = false → get_text_style s = "p") := by
  unfold get_text_style
  refine ⟨fun h15 => ?_, fun h15 h12 hb => ?_, fun h15 h12 => ?_, fun h12 => ?_,
    fun h12 hb => ?_⟩
  · rw [if_pos h15]
  · rw [if_neg (by omega), if_pos ⟨h12, hb⟩]
  · by_cases hb : isBoldFont s.font
    · rw [if_neg (by omega), if_pos ⟨by omega, hb⟩]
    · rw [if_neg (by omega), if_neg (fun hc => hb hc.2), if_pos h12]
  · rw [if_neg (by omega), if_neg (fun hc => by omega), if_neg (by omega)]
  · rw [if_neg (by omega), if_neg (fun hc => by simp [hb] at hc),
      if_neg (by omega)]

/-- Witness for `c4_style_classifier` at concrete spans: size 16 is
`"h1"`; size 12 bold is `"h2"`; size 13 non-bold is `"h2"`; size 10 is
`"p"`; size 12 non-bold is `"p"`. -/
theorem c4_style_classifier_witness :
    get_text_style ⟨16, "Arial".toList, []⟩ = "h1"
    ∧ get_text_style ⟨12, "Times-Bold".toList, []⟩ = "h2"
    ∧ get_text_style ⟨13, "Arial".toList, []⟩ = "h2"
    ∧ get_text_style ⟨10, "Arial".toList, []⟩ = "p"
    ∧ get_text_style ⟨12, "Arial".toList, []⟩ = "p" :=
  ⟨(c4_style_classifier _).1 (by decide),
   (c4_style_classifier _).2.1 (by decide) (by decide) (by decide),
   (c4_style_classifier _).2.2.1 (by decide) (by decide),
   (c4_style_classifier _).2.2.2.1 (by decide),
   (c4_style_classifier _).2.2.2.2 (by decide) (by decide)⟩

/-- C6: for every page, if the Camelot call raises any exception,
`extract_tables` swallows it and returns zero table items and zero
bounding boxes; the failure never propagates. -/
theorem c6_table_failure_swallowed (tr : Tracker) (page_height : ℚ) (e : String) :
    extract_tables tr page_height (.error e) = ([], []) := rfl

/-- C10: a block whose bounding box intersects a suppression box leaves
the tracker state unchanged and emits nothing — the overlap filter runs
before style classification, so even a heading-styled block inside a
table or image region never updates the section state, and the remaining
blocks are processed exactly as if it were absent. -/
theorem c10_suppressed_block_keeps_tracker (ignoreBoxes : List Rect) (tr : Tracker)
    (b : Block) (rest : List Block) (h : suppressed ignoreBoxes b = true) :
    (processBlock ignoreBoxes tr b).1 = tr
    ∧ (processBlock ignoreBoxes tr b).2 = none
    ∧ extract_text_blocks ignoreBoxes tr (b :: rest) = extract_text_blocks ignoreBoxes tr rest := by
  have hp : processBlock ignoreBoxes tr b = (tr, none) := by
    unfold processBlock
    by_cases h0 : b.btype ≠ 0
    · rw [if_pos h0]
    · rw [if_neg h0, if_pos h]
  refine ⟨by rw [hp], by rw [hp], ?_⟩
  simp only [extract_text_blocks, hp]

/-- Witness for `c10_suppressed_block_keeps_tracker`: a size-20 heading
block inside the suppression box `(0, 0, 10, 10)` leaves the fresh
tracker untouched. -/
theorem c10_witness :
    suppressed [⟨0, 0, 10, 10⟩] blkSupp = true
    ∧ (processBlock [⟨0, 0, 10, 10⟩] tracker0 blkSupp).1 = tracker0 :=
  ⟨by decide,
   (c10_suppressed_block_keeps_tracker [⟨0, 0, 10, 10⟩] tracker0 blkSupp [] (by decide)).1⟩

@[simp]
theorem textOf_paragraph (t s : Str) (ss : Option Str) :
    (ContentItem.paragraph t s ss).textOf = t := rfl

/-- C1: the texts of the paragraph items a page's text pass emits are
exactly the normalized texts of its text blocks that intersect no
suppression box and are non-empty after normalization, in block order —
so every block intersecting some suppression box is excluded, and every
text block disjoint from all suppression boxes with non-empty normalized
text is included. -/
theorem c1_region_reconciler (ignoreBoxes : List Rect) (tr : Tracker) (blocks : List Block) :
    (extract_text_blocks ignoreBoxes tr blocks).2.map (fun it => it.2.textOf)
      = (blocks.filter (surviving ignoreBoxes)).map extract_clean_text := by
  induction blocks generalizing tr with
  | nil => rfl
  | cons b rest ih =>
    by_cases h0 : b.btype = 0
    · by_cases hs : suppressed ignoreBoxes b
      · simp [extract_text_blocks, processBlock, h0, hs, surviving, List.filter_cons, ih]
      · by_cases he : (extract_clean_text b).isEmpty
        · simp [extract_text_blocks, processBlock, h0, hs, he, surviving, List.filter_cons, ih]
        · simp [extract_text_blocks, processBlock, h0, hs, he, surviving, List.filter_cons, ih]
    · simp [extract_text_blocks, processBlock, h0, surviving, List.filter_cons, ih]

/-- C2: per surviving text block, a heading-major block sets
`current_section` to the block's text and resets `current_sub_section`;
a heading-minor block sets `current_sub_section` with the section
unchanged; every emitted item is of type paragraph and is stamped with
the tracker state as updated by that same block.  In particular the
blocks `[H1 "Intro", P "a", H2 "Background", P "b"]` yield four
paragraph items labeled `(Intro, none)`, `(Intro, none)`,
`(Intro, Background)`, `(Intro, Background)`. -/
theorem c2_section_tracking :
    (∀ (ignoreBoxes : List Rect) (tr : Tracker) (b : Block),
      b.btype = 0 → suppressed ignoreBoxes b = false →
      (extract_clean_text b).isEmpty = false →
      ((blockStyle b = "h1" →
          processBlock ignoreBoxes tr b
            = (⟨extract_clean_text b, none⟩,
               some (b.bbox,
                 ContentItem.paragraph (extract_clean_text b) (extract_clean_text b) none)))
        ∧ (blockStyle b = "h2" →
          processBlock ignoreBoxes tr b
            = (⟨tr.current_section, some (extract_clean_text b)⟩,
               some (b.bbox,
                 ContentItem.paragraph (extract_clean_text b) tr.current_section
                   (some (extract_clean_text b)))))
        ∧ (blockStyle b = "p" →
          processBlock ignoreBoxes tr b
            = (tr,
               some (b.bbox,
                 ContentItem.paragraph (extract_clean_text b) tr.current_section
                   tr.current_sub_section)))))
    ∧ extract_text_blocks [] tracker0 [blkIntro, blkA, blkBackground, blkB]
        = (⟨"Intro".toList, some "Background".toList⟩,
           [(blkIntro.bbox, .paragraph "Intro".toList "Intro".toList none),
            (blkA.bbox, .paragraph "a".toList "Intro".toList none),
            (blkBackground.bbox,
             .paragraph "Background".toList "Intro".toList (some "Background".toList)),
            (blkB.bbox, .paragraph "b".toList "Intro".toList (some "Background".toList))]) := by
  constructor
  · intro ignoreBoxes tr b h0 hs he
    refine ⟨fun hst => ?_, fun hst => ?_, fun hst => ?_⟩ <;>
      simp [processBlock, h0, hs, he, hst]
  · decide

/-- Witness for `c2_section_tracking`: the heading-major block
`blkIntro` updates the fresh tracker to `("Intro", none)` and is emitted
as a paragraph stamped with that updated state. -/
theorem c2_witness :
    extract_clean_text blkIntro = "Intro".toList
    ∧ processBlock [] tracker0 blkIntro
        = (⟨extract_clean_text blkIntro, none⟩,
           some (blkIntro.bbox,
             ContentItem.paragraph (extract_clean_text blkIntro) (extract_clean_text blkIntro)
               none)) :=
  ⟨by decide,
   (c2_section_tracking.1 [] tracker0 blkIntro (by decide) (by decide) (by decide)).1 (by decide)⟩

/-- C5: when the Camelot call succeeds, the emitted table items are
exactly those of the candidates retained by the false-positive filter —
a candidate is discarded iff its column count is at most 1, or its row
count exceeds 10 with fewer than 3 columns, or no row survives cell
cleaning; every other candidate is retained.  In particular every
candidate of shape 12 rows by 2 columns is discarded, and every one of
shape 3 rows by 3 columns with non-empty cleaned content is retained. -/
theorem c5_table_filter :
    (∀ (tr : Tracker) (page_height : ℚ) (tabs : List CamelotTable),
      (extract_tables tr page_height (.ok tabs)).1
        = (tabs.filter keepTable).map (mkTableItem tr page_height))
    ∧ (∀ t : CamelotTable, shapeRows t.df = 12 → shapeCols t.df = 2 → keepTable t = false)
    ∧ (∀ t : CamelotTable, shapeRows t.df = 3 → shapeCols t.df = 3 →
        (finalTableData t.df).isEmpty = false → keepTable t = true) := by
  refine ⟨fun tr page_height tabs => ?_, fun t h12 h2 => ?_, fun t h3 h3c hne => ?_⟩
  · show (extractTablesLoop tr page_height tabs).1 = _
    induction tabs with
    | nil => rfl
    | cons t rest ih =>
      by_cases hc1 : shapeCols t.df ≤ 1
      · have hk : keepTable t = false := by simp [keepTable, hc1]
        simp [extractTablesLoop, hc1, List.filter_cons, hk, ih]
      · by_cases hc2 : 10 < shapeRows t.df ∧ shapeCols t.df < 3
        · have hk : keepTable t = false := by simp [keepTable, hc2.1, hc2.2]
          simp [extractTablesLoop, hc1, hc2, List.filter_cons, hk, ih]
        · by_cases hc3 : (finalTableData t.df).isEmpty
          · have hk : keepTable t = false := by simp [keepTable, hc3]
            simp [extractTablesLoop, hc1, hc2, hc3, List.filter_cons, hk, ih]
          · have hk : keepTable t = true := by
              simp only [keepTable, Bool.and_eq_true, Bool.not_eq_true']
              exact ⟨⟨by simpa using hc1, by simpa [Decidable.not_and_iff_or_not] using hc2⟩,
                by simpa using hc3⟩
            simp [extractTablesLoop, hc1, hc2, hc3, List.filter_cons, hk, ih, mkTableItem]
  · simp [keepTable, h12, h2]
  · simp [keepTable, h3, h3c, hne]

/-- Witness for `c5_table_filter`: the concrete 12-by-2 candidate is
discarded and the concrete 3-by-3 candidate is retained. -/
theorem c5_witness :
    keepTable tblTwelveByTwo = false ∧ keepTable tblThreeByThree = true :=
  ⟨c5_table_filter.2.1 tblTwelveByTwo (by decide) (by decide),
   c5_table_filter.2.2 tblThreeByThree (by decide) (by decide) (by decide)⟩

/-- C3: the tracker starts as `("Default", none)` once per document and
is never reset at a page boundary: running the page loop on `ps ++ rest`
continues into `rest` from exactly the tracker state left by `ps`.  In
particular a heading on page 1 with no heading on page 2 labels page 2's
paragraph with page 1's section, while page 1's paragraph above the
heading still shows `"Default"`. -/
theorem c3_tracker_persists_across_pages :
    (∀ (ps : List PageInput) (rest : List (Except String PageInput))
       (tr : Tracker) (pageIdx : ℕ) (acc : List (ℕ × List ContentItem)),
      parseLoop tr pageIdx acc (ps.map Except.ok ++ rest)
        = parseLoop (trackerAfter tr pageIdx ps) (pageIdx + ps.length)
            (acc ++ pagesOut tr pageIdx ps) rest)
    ∧ parseDoc [.ok pgHeading, .ok pgPlain]
        = .ok true
            [(1, [.paragraph "pre".toList "Default".toList none,
                  .paragraph "Intro".toList "Intro".toList none]),
             (2, [.paragraph "x".toList "Intro".toList none])] := by
  constructor
  · intro ps
    induction ps with
    | nil =>
      intro rest tr pageIdx acc
      simp [trackerAfter, pagesOut]
    | cons p ps ih =>
      intro rest tr pageIdx acc
      simp only [List.map_cons, List.cons_append, parseLoop, trackerAfter, pagesOut,
        List.length_cons, List.append_eq]
      rw [ih]
      have hn : pageIdx + 1 + ps.length = pageIdx + (ps.length + 1) := by omega
      rw [hn]
      simp [List.append_assoc]
  · decide

/-- C7, counterexample: a document whose first page processes and whose
second page raises exits the loop with the handle still open — the
claimed "closed on every exit path" fails on the exception path. -/
theorem c7_counterexample :
    parseDoc [.ok pgHeading, .error "page 2 failure"]
      = .raised false "page 2 failure" := by
  decide

theorem parseLoop_closed_flag (pages : List (Except String PageInput)) :
    ∀ (tr : Tracker) (pageIdx : ℕ) (acc : List (ℕ × List ContentItem)),
      (match parseLoop tr pageIdx acc pages with
       | .ok closed _ => closed = true
       | .raised closed _ => closed = false) := by
  induction pages with
  | nil => intro tr pageIdx acc; exact rfl
  | cons hd rest ih =>
    intro tr pageIdx acc
    cases hd with
    | error e => exact rfl
    | ok pg => exact ih _ _ _

/-- C7 as amended: once the document is opened, `doc.close()` runs iff
every page processes without raising; when processing a page raises, the
exception propagates out of `parse` and the close call is never reached
(there is no `try/finally` around the page loop). -/
theorem c7_close_only_on_success (pages : List (Except String PageInput)) :
    (match parseDoc pages with
     | .ok closed _ => closed = true
     | .raised closed _ => closed = false) :=
  parseLoop_closed_flag pages tracker0 0 []

/-- C8: a page's output is the concatenation
`[table items, image items, paragraph items]` sorted by the top-edge
y-coordinate of each item's bounding box with a stable ascending sort,
and with the bounding box stripped from every returned item (the
returned `ContentItem`s carry no bounding box at all): the sorted list
is ascending in the key, is a permutation of the concatenation, and any
two items with equal top edges keep their relative order from the
concatenation — tables before images before paragraphs. -/
theorem c8_page_sort_and_strip (tr : Tracker) (pageIdx : ℕ) (pg : PageInput) :
    (parse_page tr pageIdx pg).2
        = (List.insertionSort bboxLE (pageItemsWithBoxes tr pageIdx pg)).map Prod.snd
    ∧ List.Sorted bboxLE (List.insertionSort bboxLE (pageItemsWithBoxes tr pageIdx pg))
    ∧ List.Perm (List.insertionSort bboxLE (pageItemsWithBoxes tr pageIdx pg))
        (pageItemsWithBoxes tr pageIdx pg)
    ∧ (∀ a b : Rect × ContentItem, a.1.y0 = b.1.y0 →
        List.Sublist [a, b] (pageItemsWithBoxes tr pageIdx pg) →
        List.Sublist [a, b] (List.insertionSort bboxLE (pageItemsWithBoxes tr pageIdx pg))) :=
  ⟨rfl,
   List.sorted_insertionSort bboxLE _,
   List.perm_insertionSort bboxLE _,
   fun _ _ hab hsub => List.pair_sublist_insertionSort (le_of_eq hab) hsub⟩

/-- Witness for `c8_page_sort_and_strip`: on `pgTie` the table item and
the chart item share top edge 20, and the sorted list keeps the table
before the chart. -/
theorem c8_witness :
    List.Sublist [itemTieTable, itemTieChart]
      (List.insertionSort bboxLE (pageItemsWithBoxes tracker0 0 pgTie)) :=
  (c8_page_sort_and_strip tracker0 0 pgTie).2.2.2 itemTieTable itemTieChart
    (by decide) (by decide)

theorem foldl_clean_append (ls : List Line) (acc : Str) :
    ls.foldl (fun a l => a ++ pyStrip (lineText l) ++ ['\n']) acc
      = acc ++ (ls.map fun l => pyStrip (lineText l) ++ ['\n']).flatten := by
  induction ls generalizing acc with
  | nil => simp
  | cons l ls ih =>
    rw [List.foldl_cons, ih, List.map_cons, List.flatten_cons]
    simp [List.append_assoc]

theorem flatten_newline_eq_joinLinesNL (ls : List Line) (h : ls ≠ []) :
    (ls.map fun l => lineText l ++ ['\n']).flatten
      = joinLinesNL (ls.map lineText) ++ ['\n'] := by
  induction ls with
  | nil => exact absurd rfl h
  | cons l ls ih =>
    cases ls with
    | nil => simp [joinLinesNL]
    | cons u us =>
      rw [List.map_cons, List.flatten_cons, ih (by simp)]
      simp only [List.map_cons, joinLinesNL]
      simp [List.append_assoc]

theorem rstrip_append_newline (s : Str) : rstrip (s ++ ['\n']) = rstrip s := by
  simp [rstrip, List.dropWhile_cons, show pyIsSpace '\n' = true from rfl]

theorem pyStrip_append_newline (s : Str) : pyStrip (s ++ ['\n']) = pyStrip s := by
  simp [pyStrip, rstrip_append_newline]

/-- C9: normalization is idempotent — for every block whose lines each
carry no leading or trailing whitespace and whose newline-joined text
carries no leading or trailing whitespace, `extract_clean_text` returns
that joined text unchanged. -/
theorem c9_normalize_idempotent (b : Block)
    (h1 : ∀ l ∈ b.lines, pyStrip (lineText l) = lineText l)
    (h2 : pyStrip (blockJoined b) = blockJoined b) :
    extract_clean_text b = blockJoined b := by
  have hcongr : (b.lines.map fun l => pyStrip (lineText l) ++ ['\n'])
      = b.lines.map fun l => lineText l ++ ['\n'] :=
    List.map_congr_left fun l hl => by rw [h1 l hl]
  unfold blockJoined at h2 ⊢
  unfold extract_clean_text
  rw [foldl_clean_append, List.nil_append, hcongr]
  cases hb : b.lines with
  | nil => simp [joinLinesNL, pyStrip, lstrip, rstrip]
  | cons l ls =>
    rw [hb] at h2
    rw [flatten_newline_eq_joinLinesNL _ (by simp), pyStrip_append_newline]
    exact h2

/-- Witness for `c9_normalize_idempotent`: the already-normalized block
with lines `"ab"` and `"cd"` is returned unchanged. -/
theorem c9_witness :
    (∀ l ∈ blkNorm.lines, pyStrip (lineText l) = lineText l)
    ∧ pyStrip (blockJoined blkNorm) = blockJoined blkNorm
    ∧ extract_clean_text blkNorm = blockJoined blkNorm :=
  ⟨by decide, by decide, c9_normalize_idempotent blkNorm (by decide) (by decide)⟩

end PdfJson
